import Mathlib

set_option maxRecDepth 20000

/-!
Verification development for the AutoCrop crop-box detector.

The JavaScript source is embedded shallowly:

* Pure numeric functions (`src/util/math.js`, `src/util/color.js`) become
  functions over `ℚ` (the detection pipeline, whose default gamma is 1) and
  over `ℝ` (the general-gamma color normalizer).
* JavaScript `NaN` outcomes are made explicit as `Option` `none`; the
  infinities that arise from `Math.min()` over an empty collection and from
  arithmetic on its result are represented by the four-constructor type
  `JNum` (finite rational, `+∞`, `-∞`, `NaN`) with IEEE-style operations.
* The stateful `CropDetector` class becomes a record; `throw` becomes
  `Except.error`.
-/

/-! ## util/math.js -/

/-- Embedding of `clamp(value, min, max)` from `src/util/math.js`:
`Math.max(min, Math.min(max, value))`, over `ℚ`. -/
def clamp (value mn mx : ℚ) : ℚ :=
  max mn (min mx value)

/-- Embedding of `clamp8(value)` from `src/util/math.js`: clamp to `[0, 255]`. -/
def clamp8 (value : ℚ) : ℚ :=
  clamp value 0 255

/-- Real-valued version of `clamp`, used by the general-gamma color model. -/
def clampR (value mn mx : ℝ) : ℝ :=
  max mn (min mx value)

/-- Real-valued version of `clamp8`. -/
def clamp8R (value : ℝ) : ℝ :=
  clampR value 0 255

/-! ## util/color.js -/

/-- Embedding of `calcBrightness(r, g, b)` from `src/util/color.js`:
Rec. 601 perceived brightness `0.299·r + 0.587·g + 0.114·b`. -/
def calcBrightness (r g b : ℚ) : ℚ :=
  (0.299 * r) + (0.587 * g) + (0.114 * b)

/-- JavaScript `Math.pow` over `ℝ`, modeled for the exponents that occur in
`calcNormalizedColor` with a positive gamma (so the exponent `1/gamma` is a
positive real).  `Math.pow(b, e)` is `NaN` (here `none`) exactly when the base
is negative and the exponent is not an integer; for all other finite cases it
agrees with `Real.rpow` (for a negative base and an integer exponent,
`Real.rpow` coincides with the integer power by `Real.rpow_intCast`). -/
noncomputable def jsPow (b e : ℝ) : Option ℝ :=
  open Classical in
  if b < 0 ∧ ¬∃ n : ℤ, e = (n : ℝ) then none else some (b ^ e)

/-- Embedding of `calcNormalizedColor(value, blackPoint, whitePoint, gammaValue)`
from `src/util/color.js`, over `ℝ`, for a positive `gammaValue`:

```js
const black = clamp8(blackPoint)
const white = clamp(clamp8(whitePoint), black, 255)
const adjusted = Math.pow((clamp8(value) - black) / (white - black), 1 / gammaValue)
return clamp8(adjusted * 255)
```

JavaScript produces `NaN` (here `none`) or infinities where the division or
the power degenerate; the `white - black = 0` branch spells out the IEEE
outcomes of `x / 0` followed by `Math.pow(±∞, 1/gamma)` and the final clamp
(`0/0` is `NaN`; `+∞` clamps to `255`; `-∞` raised to an odd integer stays
`-∞` and clamps to `0`, any other positive exponent yields `+∞`, hence `255`). -/
noncomputable def calcNormalizedColor (value blackPoint whitePoint gammaValue : ℝ) :
    Option ℝ :=
  open Classical in
  let black := clamp8R blackPoint
  let white := clampR (clamp8R whitePoint) black 255
  if white - black = 0 then
    if clamp8R value - black = 0 then none
    else if 0 < clamp8R value - black then some 255
    else if ∃ n : ℤ, Odd n ∧ 1 / gammaValue = (n : ℝ) then some 0 else some 255
  else
    (jsPow ((clamp8R value - black) / (white - black)) (1 / gammaValue)).map
      fun adjusted => clamp8R (adjusted * 255)

/-- Embedding of `calcNormalizedColor` over `ℚ`, specialized to the pipeline's
gamma of `1` (the default `rayGamma`, under which `Math.pow(x, 1) = x` for
every JavaScript number, `NaN` and the infinities included).  JavaScript `NaN`
is `none`; the `white - black = 0` branch spells out `x / 0` through
`Math.pow(·, 1)` and the final clamp exactly as in the real-valued model. -/
def calcNormalizedColorQ (value blackPoint whitePoint : ℚ) : Option ℚ :=
  let black := clamp8 blackPoint
  let white := clamp (clamp8 whitePoint) black 255
  if white - black = 0 then
    if clamp8 value - black = 0 then none
    else if 0 < clamp8 value - black then some 255
    else some 0
  else
    some (clamp8 ((clamp8 value - black) / (white - black) * 255))

/-- Embedding of `calcNormalizedBrightness(r, g, b, blackPoint, whitePoint,
gammaValue)` from `src/util/color.js` at gamma `1`: `calcBrightness` of the
three normalized channels.  A `NaN` in any channel makes the brightness `NaN`. -/
def calcNormalizedBrightnessQ (r g b blackPoint whitePoint : ℚ) : Option ℚ :=
  match calcNormalizedColorQ r blackPoint whitePoint,
        calcNormalizedColorQ g blackPoint whitePoint,
        calcNormalizedColorQ b blackPoint whitePoint with
  | some r', some g', some b' => some (calcBrightness r' g' b')
  | _, _, _ => none

/-! ## JavaScript extended numbers

`_findEdge` computes `Math.min(...sideEdges)`, which is `+Infinity` when
every ray failed, and `detectCropBox` then does ordinary arithmetic on the
result.  `JNum` models the JavaScript doubles reachable there: a finite
rational, the two infinities, or `NaN`. -/

inductive JNum where
  | num (q : ℚ)
  | pinf
  | ninf
  | nan
deriving DecidableEq, Repr

/-- True exactly on finite values; infinities and `NaN` are not numeric. -/
def JNum.isNum : JNum → Bool
  | .num _ => true
  | _ => false

/-- JavaScript subtraction on extended numbers. -/
def jsub : JNum → JNum → JNum
  | .nan, _ => .nan
  | _, .nan => .nan
  | .num a, .num b => .num (a - b)
  | .num _, .pinf => .ninf
  | .num _, .ninf => .pinf
  | .pinf, .num _ => .pinf
  | .pinf, .pinf => .nan
  | .pinf, .ninf => .pinf
  | .ninf, .num _ => .ninf
  | .ninf, .pinf => .ninf
  | .ninf, .ninf => .nan

/-- JavaScript multiplication on extended numbers (`0 · ∞ = NaN`). -/
def jmul : JNum → JNum → JNum
  | .nan, _ => .nan
  | _, .nan => .nan
  | .num a, .num b => .num (a * b)
  | .num a, .pinf => if 0 < a then .pinf else if a < 0 then .ninf else .nan
  | .num a, .ninf => if 0 < a then .ninf else if a < 0 then .pinf else .nan
  | .pinf, .num b => if 0 < b then .pinf else if b < 0 then .ninf else .nan
  | .ninf, .num b => if 0 < b then .ninf else if b < 0 then .pinf else .nan
  | .pinf, .pinf => .pinf
  | .pinf, .ninf => .ninf
  | .ninf, .pinf => .ninf
  | .ninf, .ninf => .pinf

/-- JavaScript division on extended numbers (division by the positive zero;
`±x / 0` is `±∞`, `0 / 0` and `±∞ / ±∞` are `NaN`, finite over infinite is `0`). -/
def jdiv : JNum → JNum → JNum
  | .nan, _ => .nan
  | _, .nan => .nan
  | .num a, .num b =>
      if b = 0 then (if a = 0 then .nan else if 0 < a then .pinf else .ninf)
      else .num (a / b)
  | .num _, .pinf => .num 0
  | .num _, .ninf => .num 0
  | .pinf, .num b => if 0 ≤ b then .pinf else .ninf
  | .ninf, .num b => if 0 ≤ b then .ninf else .pinf
  | .pinf, .pinf => .nan
  | .pinf, .ninf => .nan
  | .ninf, .pinf => .nan
  | .ninf, .ninf => .nan

/-- JavaScript `>` on extended numbers (every comparison with `NaN` is false). -/
def jgt : JNum → JNum → Bool
  | .nan, _ => false
  | _, .nan => false
  | .num a, .num b => a > b
  | .pinf, .pinf => false
  | .pinf, _ => true
  | _, .pinf => false
  | .ninf, _ => false
  | .num _, .ninf => true

/-- JavaScript `Math.min(...xs)` over a list of finite arguments: `+Infinity`
for the empty spread, otherwise the minimum. -/
def jsMinList : List ℚ → JNum
  | [] => .pinf
  | x :: xs => .num (xs.foldl min x)

/-- JavaScript `Math.round`: round half toward `+∞`. -/
def jsRound (q : ℚ) : ℤ :=
  ⌊q + 1 / 2⌋

/-! ## Data model -/

/-- Sides of the canvas.  The source encodes these as the integers
`SIDE_TOP = 1`, `SIDE_RIGHT = 2`, `SIDE_BOTTOM = 3`, `SIDE_LEFT = 4` with a
defensive `throw` for any other value; with an enumerated type that branch is
unreachable and is dropped. -/
inductive Side where
  | top
  | right
  | bottom
  | left
deriving DecidableEq, Repr

/-- Decoded raw image: `info` dimensions plus the row-major pixel buffer.
The buffer is modeled as an indexing function; reads are bounds-checked by
`bufRead`, which returns `none` (JavaScript `undefined`) past the end. -/
structure RawImage where
  width : ℕ
  height : ℕ
  channels : ℕ
  data : ℕ → ℚ

/-- Detection settings, with the source's defaults.  `rayAmountMin` is an
integer because it takes part in `Math.max` with `Math.floor`'s result and
then becomes an array length. -/
structure Settings where
  rayAmount : ℚ
  rayAmountMin : ℤ
  rayMargin : ℚ
  rayMaxDepth : ℚ
  rayThreshold : ℚ
  rayBlack : ℚ
  rayWhite : ℚ
  rayGamma : ℚ
deriving DecidableEq, Repr

/-- The default settings object of the `CropDetector` class. -/
def defaultSettings : Settings :=
  { rayAmount := 0.025
    rayAmountMin := 15
    rayMargin := 0.1
    rayMaxDepth := 0.4
    rayThreshold := 15
    rayBlack := 6
    rayWhite := 60
    rayGamma := 1 }

/-- State of a `CropDetector` instance: the `isLoaded` flag, the decoded
image (absent before a successful load), the target aspect ratio
(`0` when unset), and the settings. -/
structure CropDetector where
  isLoaded : Bool
  data : Option RawImage
  imageRatio : ℚ
  settings : Settings

/-- Error outcomes of the detector's fallible operations (`throw` sites and
the external decoder's failure). -/
inductive DetectError where
  | notLoaded
  | invalidEncoding
  | decodeFailed
deriving DecidableEq, Repr

/-! ## Side geometry -/

/-- Embedding of `correctScanRatio(scanLength, imageRatio, canvasRatio,
applyCorrection)`: unless correction applies and the ratios differ, pass the
length through; otherwise scale by the smaller ratio over the larger. -/
def correctScanRatio (scanLength imageRatio canvasRatio : ℚ)
    (applyCorrection : Bool) : ℚ :=
  if ¬applyCorrection ∨ imageRatio = canvasRatio then
    scanLength
  else
    let ratioDifference :=
      if imageRatio > canvasRatio then canvasRatio / imageRatio
      else imageRatio / canvasRatio
    scanLength * ratioDifference

/-- Embedding of `getSideLength(width, height, side)`: the length along the
side and the length of the perpendicular axis. -/
def getSideLength (width height : ℚ) : Side → ℚ × ℚ
  | .top | .bottom => (width, height)
  | .left | .right => (height, width)

/-- Embedding of `getSideScanLength(width, height, imageRatio, canvasRatio,
side)`: the along-side scan length, ratio-corrected only when the expected
bars are perpendicular to the scan. -/
def getSideScanLength (width height imageRatio canvasRatio : ℚ) : Side → ℚ
  | .top | .bottom =>
      correctScanRatio width imageRatio canvasRatio (decide (imageRatio < canvasRatio))
  | .left | .right =>
      correctScanRatio height imageRatio canvasRatio (decide (imageRatio > canvasRatio))

/-! ## Pixel access -/

/-- Bounds-checked read of one buffer cell; `none` is JavaScript `undefined`
for a read past the end of the buffer (negative offsets do not occur in any
reachable call). -/
def bufRead (img : RawImage) (i : ℤ) : Option ℚ :=
  if 0 ≤ i ∧ i < (img.width * img.height * img.channels : ℤ) then
    some (img.data i.toNat)
  else
    none

/-- Embedding of `_getPixelAt(x, y)`: the first three channels of the pixel at
the row-major offset `x·channels + y·width·channels`. -/
def getPixelAt (img : RawImage) (x y : ℤ) : Option ℚ × Option ℚ × Option ℚ :=
  let offset := x * img.channels + y * (img.width * img.channels)
  (bufRead img offset, bufRead img (offset + 1), bufRead img (offset + 2))

/-- Embedding of `_getPixelFromEdge(side, b, a)`: pixel at offset `b` along a
side and depth `a` into the image. -/
def getPixelFromEdge (img : RawImage) (side : Side) (b a : ℤ) :
    Option ℚ × Option ℚ × Option ℚ :=
  match side with
  | .top => getPixelAt img b a
  | .bottom => getPixelAt img b ((img.height : ℤ) - 1 - a)
  | .left => getPixelAt img a b
  | .right => getPixelAt img ((img.width : ℤ) - 1 - a) b

/-- Embedding of `_getPixelBrightnessAt(x, y)`: `calcBrightness` of the pixel's
channels; an out-of-range read gives `NaN` (`none`). -/
def getPixelBrightnessAt (img : RawImage) (x y : ℤ) : Option ℚ :=
  match getPixelAt img x y with
  | (some r, some g, some b) => some (calcBrightness r g b)
  | _ => none

/-- Embedding of `_getBgBrightness()`: average brightness of the 2×2 corner
block; `NaN` (`none`) if any of the four reads is out of range. -/
def getBgBrightness (img : RawImage) : Option ℚ :=
  match getPixelBrightnessAt img 0 0, getPixelBrightnessAt img 1 0,
        getPixelBrightnessAt img 0 1, getPixelBrightnessAt img 1 1 with
  | some p00, some p10, some p01, some p11 => some ((p00 + p10 + p01 + p11) / 4)
  | _, _, _, _ => none

/-! ## Ray caster -/

/-- Embedding of `normalizeRayHits(rayHits)`: sub-pixel interpolation between
the first two hits.  The source destructures the first two entries; a list
with fewer than two entries would be a runtime error (`none` here), and the
caller only passes lists of length two. -/
def normalizeRayHits (rayHits : List (ℕ × ℚ)) : Option ℚ :=
  match rayHits with
  | a :: b :: _ =>
    let aPos := a.1
    let aLevel := a.2 / 255
    let bPos := b.1
    let bLevel := b.2 / 255
    let direction := aLevel > bLevel
    let factor := if direction then 1 / aLevel else 1 / bLevel
    let aLevelNormalized := aLevel * factor
    let bLevelNormalized := bLevel * factor
    let diff := (bPos : ℚ) - (aPos : ℚ)
    let weight := bLevelNormalized * aLevelNormalized
    some (if direction then (bPos : ℚ) - diff * (1 - weight)
          else (aPos : ℚ) + diff * (1 - weight))
  | _ => none

/-- The brightness-product weight computed inside `normalizeRayHits`, exposed
for the statements about interpolation (levels are the raw 0–255 hit levels). -/
def rayHitWeight (aRaw bRaw : ℚ) : ℚ :=
  let aLevel := aRaw / 255
  let bLevel := bRaw / 255
  let factor := if aLevel > bLevel then 1 / aLevel else 1 / bLevel
  (bLevel * factor) * (aLevel * factor)

/-- The normalized brightness sampled by one ray probe at depth `a`
(the body of `_castEdgeRay`'s loop before the threshold tests): pixel at
`_getPixelFromEdge(side, b, a)` pushed through `calcNormalizedBrightness`
with black point `rayBlack + bgBrightness`.  A `NaN` background (possible
only for degenerate images) poisons the black point and makes every sample
`NaN`. -/
def castRaySample (img : RawImage) (s : Settings) (bg : Option ℚ)
    (side : Side) (b : ℤ) (a : ℕ) : Option ℚ :=
  match bg with
  | none => none
  | some bgBrightness =>
    match getPixelFromEdge img side b (a : ℤ) with
    | (some r, some g, some bl) =>
        calcNormalizedBrightnessQ r g bl (s.rayBlack + bgBrightness) s.rayWhite
    | _ => none

/-- One iteration of `_castEdgeRay`'s hit-list update, in source order: push
the sample when above the threshold, then clear the hit list when the sample
is at or below the threshold with hits pending.  A `NaN` sample (`none`) does
neither, since both JavaScript comparisons are false. -/
def castStep (threshold : ℚ) (rayHits : List (ℕ × ℚ)) (a : ℕ) :
    Option ℚ → List (ℕ × ℚ)
  | some v =>
    let hits1 := if v > threshold then rayHits ++ [(a, v)] else rayHits
    if v ≤ threshold ∧ 0 < hits1.length then [] else hits1
  | none => rayHits

/-- The `while` loop of `_castEdgeRay`, with the remaining depth as fuel
(`fuel = maxDepth - a` in the source's terms).  Per iteration run `castStep`
on the sample at the current depth and return the accumulated hits once there
are two.  Running out of depth returns `none` (the source's `null`). -/
def castLoop (f : ℕ → Option ℚ) (threshold : ℚ) :
    ℕ → List (ℕ × ℚ) → ℕ → Option (List (ℕ × ℚ))
  | _, _, 0 => none
  | a, rayHits, fuel + 1 =>
    let hits2 := castStep threshold rayHits a (f a)
    if 2 ≤ hits2.length then some hits2 else castLoop f threshold (a + 1) hits2 fuel

/-- The hit list with which `_castEdgeRay(b, side, maxDepth, bgBrightness)`
reaches `normalizeRayHits`, or `none` when the ray finds no edge. -/
def castEdgeRayHits (img : RawImage) (s : Settings) (b : ℤ) (side : Side)
    (maxDepth : ℕ) (bg : Option ℚ) : Option (List (ℕ × ℚ)) :=
  castLoop (castRaySample img s bg side b) s.rayThreshold 0 [] maxDepth

/-- Embedding of `_castEdgeRay(b, side, maxDepth, bgBrightness)`: the
interpolated sub-pixel position of the first two consecutive above-threshold
samples, or `none` (the source's `null`) when the ray finds no edge. -/
def castEdgeRay (img : RawImage) (s : Settings) (b : ℤ) (side : Side)
    (maxDepth : ℕ) (bg : Option ℚ) : Option ℚ :=
  (castEdgeRayHits img s b side maxDepth bg).bind normalizeRayHits

/-- Embedding of `_findEdge(side, bgBrightness)`: scan geometry, one ray per
probe position, and `Math.min` over the successful rays — `+Infinity`
(`JNum.pinf`) when every ray failed. -/
def findEdge (img : RawImage) (s : Settings) (targetRatio : ℚ) (side : Side)
    (bg : Option ℚ) : JNum :=
  let canvasRatio : ℚ := (img.width : ℚ) / (img.height : ℚ)
  let imageRatio := if targetRatio ≠ 0 then targetRatio else canvasRatio
  let sideLength := getSideLength (img.width : ℚ) (img.height : ℚ) side
  let scanLength := getSideScanLength (img.width : ℚ) (img.height : ℚ)
    imageRatio canvasRatio side
  let offsetStart := scanLength * s.rayMargin + (sideLength.1 - scanLength) / 2
  let offsetEnd := sideLength.1 - offsetStart
  let rayNumber : ℤ := max ⌊scanLength * s.rayAmount⌋ s.rayAmountMin
  let rayStep := offsetEnd / (rayNumber : ℚ)
  let maxDepth : ℤ := ⌊sideLength.2 * s.rayMaxDepth⌋
  let sideEdges :=
    ((List.range rayNumber.toNat).map fun n =>
      let b := jsRound ((n : ℚ) * rayStep + offsetStart)
      castEdgeRay img s b side maxDepth.toNat bg).filterMap id
  jsMinList sideEdges

/-- The four edges returned by `_findEdges(bgBrightness)`. -/
structure Edges where
  top : JNum
  right : JNum
  bottom : JNum
  left : JNum
deriving DecidableEq, Repr

/-- Embedding of `_findEdges(bgBrightness)`. -/
def findEdges (img : RawImage) (s : Settings) (targetRatio : ℚ)
    (bg : Option ℚ) : Edges :=
  { top := findEdge img s targetRatio .top bg
    right := findEdge img s targetRatio .right bg
    bottom := findEdge img s targetRatio .bottom bg
    left := findEdge img s targetRatio .left bg }

/-! ## Crop box detector -/

/-- Result of `detectCropBox()`, with the source's nested object flattened
into one record (`source.*`, `cropped.*`, `target.aspectRatio`,
`image.backgroundBrightness`). -/
structure CropBoxResult where
  sourceWidth : ℚ
  sourceHeight : ℚ
  sourceAspectRatio : JNum
  croppedWidth : JNum
  croppedHeight : JNum
  croppedRatio : JNum
  correctedWidth : JNum
  correctedHeight : JNum
  edges : Edges
  targetAspectRatio : ℚ
  backgroundBrightness : JNum
deriving DecidableEq, Repr

/-- The `correctedWidth` expression of `detectCropBox()`:
`imageRatio > croppedRatio ? width * (imageRatio / croppedRatio) : width`. -/
def calcCorrectedWidth (imageRatio croppedRatio width : JNum) : JNum :=
  if jgt imageRatio croppedRatio then jmul width (jdiv imageRatio croppedRatio)
  else width

/-- The `correctedHeight` expression of `detectCropBox()`:
`imageRatio > croppedRatio ? height : height * (imageRatio / croppedRatio)`. -/
def calcCorrectedHeight (imageRatio croppedRatio height : JNum) : JNum :=
  if jgt imageRatio croppedRatio then height
  else jmul height (jdiv imageRatio croppedRatio)

/-- Embedding of `detectCropBox()`: fail when nothing is loaded, otherwise
sample the background, find the four edges, and assemble the result.  The
`data` field is necessarily present when `isLoaded` is set (the `none` arm is
unreachable through the load operations). -/
def detectCropBox (det : CropDetector) : Except DetectError CropBoxResult :=
  if det.isLoaded = false then .error .notLoaded else
  match det.data with
  | none => .error .notLoaded
  | some img =>
    let bg := getBgBrightness img
    let edges := findEdges img det.settings det.imageRatio bg
    let croppedWidth := jsub (jsub (.num (img.width : ℚ)) edges.left) edges.right
    let croppedHeight := jsub (jsub (.num (img.height : ℚ)) edges.top) edges.bottom
    let croppedRatio := jdiv croppedWidth croppedHeight
    .ok
      { sourceWidth := (img.width : ℚ)
        sourceHeight := (img.height : ℚ)
        sourceAspectRatio := jdiv (.num (img.width : ℚ)) (.num (img.height : ℚ))
        croppedWidth := croppedWidth
        croppedHeight := croppedHeight
        croppedRatio := croppedRatio
        correctedWidth :=
          calcCorrectedWidth (.num det.imageRatio) croppedRatio (.num (img.width : ℚ))
        correctedHeight :=
          calcCorrectedHeight (.num det.imageRatio) croppedRatio (.num (img.height : ℚ))
        edges := edges
        targetAspectRatio := det.imageRatio
        backgroundBrightness :=
          match bg with
          | some q => .num q
          | none => .nan }

/-! ## Base64 loading -/

/-- Whether position `k` (the length of the `<mime>` group) yields a match of
the source's regular expression `^data:(.+?);base64,`: the string starts with
`data:`, then at least one character none of which is a line terminator
(JavaScript `.`), then `;base64,`. -/
def base64PrefixOk (cs : List Char) (k : ℕ) : Bool :=
  1 ≤ k &&
  "data:".toList.isPrefixOf cs &&
  ((cs.drop 5).take k).length = k &&
  ((cs.drop 5).take k).all (fun c =>
    !(c = '\n' || c = '\r' || c = Char.ofNat 0x2028 || c = Char.ofNat 0x2029)) &&
  ";base64,".toList.isPrefixOf (cs.drop (5 + k))

/-- The length of `mime[0]` — the full `data:<mime>;base64,` prefix — for the
source's non-greedy match, or `none` when the regular expression does not
match (`base64.match(...)` returned `null`). -/
def base64MatchLength (s : String) : Option ℕ :=
  ((List.range (s.length + 1)).find? fun k => base64PrefixOk s.data k).map
    fun k => 5 + k + 8

/-- Embedding of `loadImageBase64(base64)`.  The decoding of the stripped
payload is delegated to the external facility (`sharp` via
`loadImageBuffer`), modeled by the `decode` parameter; a decode failure is
`DetectError.decodeFailed`. -/
def loadImageBase64 (det : CropDetector)
    (decode : String → Except DetectError RawImage) (base64 : String) :
    Except DetectError CropDetector :=
  match base64MatchLength base64 with
  | none => .error .invalidEncoding
  | some len =>
    match decode (base64.drop len) with
    | .error e => .error e
    | .ok img => .ok { det with isLoaded := true, data := some img }

/-! ## Concrete inputs used by the claims -/

/-- A square RGB canvas of side `size` whose centered square interior (border
thickness `border` on every side) has all three channels equal to `inner`,
everything else (the border) equal to `outer`. -/
def borderImage (size border : ℕ) (outer inner : ℚ) : RawImage :=
  { width := size
    height := size
    channels := 3
    data := fun i =>
      let p := i / 3
      let x := p % size
      let y := p / size
      if border ≤ x ∧ x < size - border ∧ border ≤ y ∧ y < size - border then
        inner
      else
        outer }

/-- A 20×20 RGB canvas, interior columns 2–17 and rows 4–15 white (255), the
asymmetric border (2 left/right, 4 top/bottom) black. -/
def asymImage20 : RawImage :=
  { width := 20
    height := 20
    channels := 3
    data := fun i =>
      let p := i / 3
      let x := p % 20
      let y := p / 20
      if 2 ≤ x ∧ x ≤ 17 ∧ 4 ≤ y ∧ y ≤ 15 then 255 else 0 }

/-- A 1×4 RGB strip whose rows from the top are 100, 60, 100, 100 in all
channels. -/
def stripImageGap : RawImage :=
  { width := 1
    height := 4
    channels := 3
    data := fun i => if 3 ≤ i ∧ i < 6 then 60 else 100 }

/-- A 1×4 RGB strip whose rows from the top are 0, 255, 255, 255 in all
channels. -/
def stripImagePlain : RawImage :=
  { width := 1
    height := 4
    channels := 3
    data := fun i => if i < 3 then 0 else 255 }

/-- A loaded detector over `img` with target aspect ratio `ratio` and the
default settings. -/
def loadedDetector (img : RawImage) (ratio : ℚ) : CropDetector :=
  { isLoaded := true
    data := some img
    imageRatio := ratio
    settings := defaultSettings }

/-- Embedding of the `CropDetector` constructor: not loaded, no data, target
aspect ratio from the options (`0` when unset, via `aspectRatio ?? 0`), the
default settings. -/
def newCropDetector (aspectRatio : ℚ) : CropDetector :=
  { isLoaded := false
    data := none
    imageRatio := aspectRatio
    settings := defaultSettings }

instance {ε α : Type} [DecidableEq ε] [DecidableEq α] : DecidableEq (Except ε α) :=
  fun x y =>
    match x, y with
    | .error a, .error b =>
      if h : a = b then .isTrue (by rw [h]) else .isFalse fun hc => h (Except.error.inj hc)
    | .ok a, .ok b =>
      if h : a = b then .isTrue (by rw [h]) else .isFalse fun hc => h (Except.ok.inj hc)
    | .error _, .ok _ => .isFalse fun hc => Except.noConfusion hc
    | .ok _, .error _ => .isFalse fun hc => Except.noConfusion hc

/-! ## C4: `correctScanRatio` algebra -/

/-- C4: for positive ratios, `correctScanRatio` is the identity when the two
ratios coincide or when correction is off, and otherwise scales by
`min(r1,r2)/max(r1,r2)`, which cannot increase a nonnegative scan length. -/
theorem correctScanRatio_spec (L r r1 r2 : ℚ) (h0 : 0 < r) (h1 : 0 < r1)
    (h2 : 0 < r2) :
    correctScanRatio L r r true = L ∧
    correctScanRatio L r1 r2 false = L ∧
    (r1 ≠ r2 →
      correctScanRatio L r1 r2 true = L * (min r1 r2 / max r1 r2) ∧
      (0 ≤ L → correctScanRatio L r1 r2 true ≤ L)) := by
  refine ⟨by simp [correctScanRatio], by simp [correctScanRatio], fun hne => ?_⟩
  have hval : correctScanRatio L r1 r2 true = L * (min r1 r2 / max r1 r2) := by
    unfold correctScanRatio
    rw [if_neg (by simpa using hne)]
    rcases lt_or_gt_of_ne hne with hlt | hgt
    · rw [if_neg (by exact not_lt.mpr hlt.le), min_eq_left hlt.le, max_eq_right hlt.le]
    · rw [if_pos hgt, min_eq_right hgt.le, max_eq_left hgt.le]
  refine ⟨hval, fun hL => ?_⟩
  rw [hval]
  have hmaxpos : 0 < max r1 r2 := lt_max_of_lt_left h1
  have hle1 : min r1 r2 / max r1 r2 ≤ 1 := (div_le_one hmaxpos).mpr (min_le_max)
  exact mul_le_of_le_one_right hL hle1

/-- Witness for `correctScanRatio_spec` at `L = 10`, `r = 2`, `r1 = 2`,
`r2 = 3`. -/
theorem correctScanRatio_spec_witness :
    (0 : ℚ) < 2 ∧ (0 : ℚ) < 3 ∧
    (correctScanRatio 10 2 2 true = 10 ∧
     correctScanRatio 10 2 3 false = 10 ∧
     ((2 : ℚ) ≠ 3 →
       correctScanRatio 10 2 3 true = 10 * (min (2:ℚ) 3 / max (2:ℚ) 3) ∧
       ((0:ℚ) ≤ 10 → correctScanRatio 10 2 3 true ≤ 10))) :=
  ⟨by norm_num, by norm_num, correctScanRatio_spec 10 2 2 3 (by norm_num) (by norm_num) (by norm_num)⟩

/-! ## C8: `getSideScanLength` -/

/-- C8: the top/bottom scan length is the width scaled by
`min(imageRatio, canvasRatio) / max(imageRatio, canvasRatio)` exactly when
`imageRatio < canvasRatio` and the full width otherwise; the left/right scan
length is the height scaled by the same factor exactly when
`imageRatio > canvasRatio` and the full height otherwise. -/
theorem getSideScanLength_spec (w h ir cr : ℚ) :
    (getSideScanLength w h ir cr .top =
      if ir < cr then w * (min ir cr / max ir cr) else w) ∧
    (getSideScanLength w h ir cr .bottom =
      if ir < cr then w * (min ir cr / max ir cr) else w) ∧
    (getSideScanLength w h ir cr .left =
      if cr < ir then h * (min ir cr / max ir cr) else h) ∧
    (getSideScanLength w h ir cr .right =
      if cr < ir then h * (min ir cr / max ir cr) else h) := by
  have htb : correctScanRatio w ir cr (decide (ir < cr)) =
      if ir < cr then w * (min ir cr / max ir cr) else w := by
    by_cases hlt : ir < cr
    · rw [if_pos hlt]
      unfold correctScanRatio
      rw [if_neg (by simp [hlt, ne_of_lt hlt]), if_neg (not_lt.mpr hlt.le),
        min_eq_left hlt.le, max_eq_right hlt.le]
    · rw [if_neg hlt]
      unfold correctScanRatio
      rw [if_pos (by simp [hlt])]
  have hlr : correctScanRatio h ir cr (decide (ir > cr)) =
      if cr < ir then h * (min ir cr / max ir cr) else h := by
    by_cases hgt : cr < ir
    · rw [if_pos hgt]
      unfold correctScanRatio
      rw [if_neg (by simp [hgt, (ne_of_lt hgt).symm]), if_pos hgt,
        min_eq_right hgt.le, max_eq_left hgt.le]
    · rw [if_neg hgt]
      unfold correctScanRatio
      rw [if_pos (by simp [hgt])]
  exact ⟨htb, htb, hlr, hlr⟩

/-! ## C6: detection before load -/

/-- C6: on a detector whose `isLoaded` flag is unset, `detectCropBox` fails
with the not-loaded error.  The result is the same for every `data`, target
ratio and settings value, so no pixel buffer is read before the failure. -/
theorem detectCropBox_requires_load (d : Option RawImage) (ratio : ℚ)
    (s : Settings) :
    detectCropBox ⟨false, d, ratio, s⟩ = .error .notLoaded := by
  rfl

/-! ## C7: `calcNormalizedColor` range -/

/-- Lower clamp bound: `clamp8R` never goes below `0`. -/
theorem clamp8R_nonneg (x : ℝ) : 0 ≤ clamp8R x :=
  le_max_left 0 _

/-- Upper clamp bound: `clamp8R` never exceeds `255`. -/
theorem clamp8R_le (x : ℝ) : clamp8R x ≤ 255 :=
  max_le (by norm_num) (min_le_left _ _)

/-- One half is not an integer (the exponent `1/gamma` at gamma `2`). -/
theorem onehalf_not_intCast : ¬∃ n : ℤ, (1 / 2 : ℝ) = (n : ℝ) := by
  rintro ⟨n, hn⟩
  have h2 : (1 : ℝ) = 2 * (n : ℝ) := by linarith
  have h3 : (1 : ℤ) = 2 * n := by exact_mod_cast h2
  omega

/-- Counterexample to C7 as stated: at `value = 0`, `black = 10`,
`white = 60`, `gamma = 2` the preconditions hold (`gamma > 0` and the clamped
white point `60` exceeds the clamped black point `10`), yet the clamped value
`0` lies below the black point, the base of the power is negative, and
JavaScript `Math.pow(-1/5, 1/2)` is `NaN` — which the final clamp propagates,
so no real number in `[0, 255]` is returned. -/
theorem calcNormalizedColor_gamma2_nan : calcNormalizedColor 0 10 60 2 = none := by
  have hB : clamp8R 10 = 10 := by unfold clamp8R clampR; norm_num
  have hv : clamp8R 0 = 0 := by unfold clamp8R clampR; norm_num
  have hW : clampR (clamp8R 60) 10 255 = 60 := by
    unfold clamp8R clampR; norm_num
  have hpow : jsPow ((0 - 10) / ((60 : ℝ) - 10)) (1 / 2) = none := by
    unfold jsPow
    rw [if_pos ⟨by norm_num, onehalf_not_intCast⟩]
  simp only [calcNormalizedColor, hB, hv]
  rw [hW, if_neg (by norm_num : ¬((60 : ℝ) - 10 = 0)), hpow]
  rfl

/-- C7 (amended): under the stated preconditions plus the amendment that the
clamped value does not lie below the clamped black point,
`calcNormalizedColor` returns a real number in `[0, 255]` equal to
`clamp8(255 · ((clamp8(value) - black) / (white - black))^(1/gamma))` — no
`NaN` or infinity escapes.  (Without the amendment a negative base meets a
non-integer exponent and `Math.pow` yields `NaN`; see
`calcNormalizedColor_gamma2_nan`.) -/
theorem calcNormalizedColor_spec (value black white gamma : ℝ) (hγ : 0 < gamma)
    (hwb : clamp8R black < clampR (clamp8R white) (clamp8R black) 255)
    (hvb : clamp8R black ≤ clamp8R value) :
    ∃ r, calcNormalizedColor value black white gamma = some r ∧
      0 ≤ r ∧ r ≤ 255 ∧
      r = clamp8R (((clamp8R value - clamp8R black) /
        (clampR (clamp8R white) (clamp8R black) 255 - clamp8R black)) ^ (1 / gamma) * 255) := by
  have hden : ¬(clampR (clamp8R white) (clamp8R black) 255 - clamp8R black = 0) :=
    sub_ne_zero.mpr (ne_of_gt hwb)
  have hbase : 0 ≤ (clamp8R value - clamp8R black) /
      (clampR (clamp8R white) (clamp8R black) 255 - clamp8R black) :=
    div_nonneg (by linarith) (by linarith)
  refine ⟨_, ?_, clamp8R_nonneg _, clamp8R_le _, rfl⟩
  simp only [calcNormalizedColor]
  rw [if_neg hden]
  unfold jsPow
  rw [if_neg fun hc => absurd hc.1 (not_lt.mpr hbase)]
  rfl

/-- Witness for `calcNormalizedColor_spec` at `value = 100`, `black = 10`,
`white = 60`, `gamma = 1`. -/
theorem calcNormalizedColor_spec_witness :
    (0 : ℝ) < 1 ∧ clamp8R 10 < clampR (clamp8R 60) (clamp8R 10) 255 ∧
    clamp8R 10 ≤ clamp8R 100 ∧
    ∃ r, calcNormalizedColor 100 10 60 1 = some r ∧
      0 ≤ r ∧ r ≤ 255 ∧
      r = clamp8R (((clamp8R 100 - clamp8R 10) /
        (clampR (clamp8R 60) (clamp8R 10) 255 - clamp8R 10)) ^ (1 / (1:ℝ)) * 255) :=
  ⟨by norm_num,
   by unfold clamp8R clampR; norm_num,
   by unfold clamp8R clampR; norm_num,
   calcNormalizedColor_spec 100 10 60 1 (by norm_num)
     (by unfold clamp8R clampR; norm_num) (by unfold clamp8R clampR; norm_num)⟩

/-! ## C9: base64 prefix check -/

/-- A successful match of the source's `^data:(.+?);base64,` regular
expression decomposes the input: it is literally `data:`, then a nonempty
mime group free of line terminators, then `;base64,`, then the payload. -/
theorem base64Match_decomposition {s : String} {len : ℕ}
    (h : base64MatchLength s = some len) :
    ∃ mime rest : List Char, mime ≠ [] ∧
      (∀ c ∈ mime,
        ¬(c = '\n' ∨ c = '\r' ∨ c = Char.ofNat 0x2028 ∨ c = Char.ofNat 0x2029)) ∧
      s.data = "data:".toList ++ mime ++ ";base64,".toList ++ rest := by
  unfold base64MatchLength at h
  cases hfind : (List.range (s.length + 1)).find? (fun k => base64PrefixOk s.data k) with
  | none => rw [hfind] at h; simp at h
  | some k =>
    have hok : base64PrefixOk s.data k = true := List.find?_some hfind
    simp only [base64PrefixOk, Bool.and_eq_true, decide_eq_true_eq] at hok
    obtain ⟨⟨⟨⟨h1, h2⟩, h3⟩, h4⟩, h5⟩ := hok
    have hp2 : "data:".toList <+: s.data := by
      rwa [List.isPrefixOf_iff_prefix] at h2
    have hp5 : ";base64,".toList <+: s.data.drop (5 + k) := by
      rwa [List.isPrefixOf_iff_prefix] at h5
    have e1 : s.data = "data:".toList ++ s.data.drop 5 := by
      have ht : "data:".toList = s.data.take 5 := List.prefix_iff_eq_take.mp hp2
      conv_lhs => rw [← List.take_append_drop 5 s.data]
      rw [← ht]
    have e2 : s.data.drop 5 = (s.data.drop 5).take k ++ s.data.drop (5 + k) := by
      conv_lhs => rw [← List.take_append_drop k (s.data.drop 5)]
      rw [List.drop_drop]
    have e3 : s.data.drop (5 + k) = ";base64,".toList ++ s.data.drop (5 + k + 8) := by
      have ht : ";base64,".toList = (s.data.drop (5 + k)).take 8 :=
        List.prefix_iff_eq_take.mp hp5
      conv_lhs => rw [← List.take_append_drop 8 (s.data.drop (5 + k))]
      rw [List.drop_drop, ← ht]
    refine ⟨(s.data.drop 5).take k, s.data.drop (5 + k + 8), ?_, ?_, ?_⟩
    · intro hnil
      rw [hnil] at h3
      simp at h3
      omega
    · intro c hc
      have hb := List.all_eq_true.mp h4 c hc
      intro hor
      rcases hor with h' | h' | h' | h' <;> simp [h'] at hb
    · conv_lhs => rw [e1, e2, e3]
      simp only [List.append_assoc]

/-- C9: an input string that does not begin with a literal
`data:<mime>;base64,` prefix makes `loadImageBase64` fail with the
invalid-encoding error.  The result is the same for every decode function, so
no bytes reach the external decode facility, and the invalid-encoding error
is a different error from the decode error. -/
theorem loadImageBase64_noPrefix (det : CropDetector)
    (decode : String → Except DetectError RawImage) (s : String)
    (h : ¬∃ mime rest : List Char, mime ≠ [] ∧
      (∀ c ∈ mime,
        ¬(c = '\n' ∨ c = '\r' ∨ c = Char.ofNat 0x2028 ∨ c = Char.ofNat 0x2029)) ∧
      s.data = "data:".toList ++ mime ++ ";base64,".toList ++ rest) :
    loadImageBase64 det decode s = .error .invalidEncoding ∧
    DetectError.invalidEncoding ≠ DetectError.decodeFailed := by
  refine ⟨?_, by simp⟩
  unfold loadImageBase64
  cases hm : base64MatchLength s with
  | none => rfl
  | some len => exact absurd (base64Match_decomposition hm) h

/-- Witness for `loadImageBase64_noPrefix` on the input `"hello"`, which is
too short to contain the `data:<mime>;base64,` prefix. -/
theorem loadImageBase64_noPrefix_witness :
    loadImageBase64 (newCropDetector 0) (fun _ => .error .decodeFailed) "hello" =
      .error .invalidEncoding ∧
    DetectError.invalidEncoding ≠ DetectError.decodeFailed :=
  loadImageBase64_noPrefix (newCropDetector 0) (fun _ => .error .decodeFailed) "hello"
    (by
      rintro ⟨mime, rest, hne, _, he⟩
      have hlen := congrArg List.length he
      simp at hlen)

/-! ## C10: shape of a successful ray cast -/

/-- Lower clamp bound over `ℚ`. -/
theorem clamp8_nonneg (x : ℚ) : 0 ≤ clamp8 x :=
  le_max_left 0 _

/-- Upper clamp bound over `ℚ`. -/
theorem clamp8_le (x : ℚ) : clamp8 x ≤ 255 :=
  max_le (by norm_num) (min_le_left _ _)

/-- Every defined output of the gamma-1 normalizer lies in `[0, 255]`. -/
theorem calcNormalizedColorQ_bounds {v bp wp r : ℚ}
    (h : calcNormalizedColorQ v bp wp = some r) : 0 ≤ r ∧ r ≤ 255 := by
  simp only [calcNormalizedColorQ] at h
  split at h
  · split at h
    · exact absurd h (by simp)
    · split at h <;>
        · obtain rfl : _ = r := Option.some.inj h
          norm_num
  · obtain rfl : _ = r := Option.some.inj h
    exact ⟨clamp8_nonneg _, clamp8_le _⟩

/-- `calcBrightness` of channels in `[0, 255]` lies in `[0, 255]` (the Rec.
601 weights sum to one). -/
theorem calcBrightness_bounds {r g b : ℚ} (hr : 0 ≤ r ∧ r ≤ 255)
    (hg : 0 ≤ g ∧ g ≤ 255) (hb : 0 ≤ b ∧ b ≤ 255) :
    0 ≤ calcBrightness r g b ∧ calcBrightness r g b ≤ 255 := by
  unfold calcBrightness
  constructor <;> nlinarith [hr.1, hr.2, hg.1, hg.2, hb.1, hb.2]

/-- Every defined ray sample lies in `[0, 255]`. -/
theorem castRaySample_bounds {img : RawImage} {s : Settings} {bg : Option ℚ}
    {side : Side} {b : ℤ} {a : ℕ} {v : ℚ}
    (h : castRaySample img s bg side b a = some v) : 0 ≤ v ∧ v ≤ 255 := by
  unfold castRaySample at h
  rcases bg with _ | bgv
  · exact absurd h (by simp)
  · rcases hpx : getPixelFromEdge img side b (a : ℤ) with ⟨cr, cg, cb⟩
    rw [hpx] at h
    rcases cr with _ | r <;> rcases cg with _ | g <;> rcases cb with _ | bl <;>
      simp only [] at h <;> try exact absurd h (by simp)
    unfold calcNormalizedBrightnessQ at h
    rcases hcr : calcNormalizedColorQ r (s.rayBlack + bgv) s.rayWhite with _ | r'
    all_goals rw [hcr] at h
    · exact absurd h (by simp)
    rcases hcg : calcNormalizedColorQ g (s.rayBlack + bgv) s.rayWhite with _ | g'
    all_goals rw [hcg] at h
    · exact absurd h (by simp)
    rcases hcb : calcNormalizedColorQ bl (s.rayBlack + bgv) s.rayWhite with _ | b'
    all_goals rw [hcb] at h
    · exact absurd h (by simp)
    obtain rfl : calcBrightness r' g' b' = v := Option.some.inj h
    exact calcBrightness_bounds (calcNormalizedColorQ_bounds hcr)
      (calcNormalizedColorQ_bounds hcg) (calcNormalizedColorQ_bounds hcb)

/-- `castStep` on a `NaN` sample leaves the hit list alone. -/
theorem castStep_none (t : ℚ) (hits : List (ℕ × ℚ)) (a : ℕ) :
    castStep t hits a none = hits :=
  rfl

/-- `castStep` on an above-threshold sample appends the hit. -/
theorem castStep_hit {t v : ℚ} (hits : List (ℕ × ℚ)) (a : ℕ) (hv : v > t) :
    castStep t hits a (some v) = hits ++ [(a, v)] := by
  simp [castStep, hv, not_le.mpr hv]

/-- `castStep` on an at-or-below-threshold sample clears the hit list. -/
theorem castStep_miss {t v : ℚ} (hits : List (ℕ × ℚ)) (a : ℕ) (hv : ¬v > t) :
    castStep t hits a (some v) = [] := by
  cases hits with
  | nil => simp [castStep, hv]
  | cons p ps => simp [castStep, hv, not_lt.mp hv]

/-- Invariant of the ray-cast loop: starting from a hit list of at most one
pending hit, all pending hits below the current depth and strictly above the
threshold (and at most 255), a successful run returns exactly two hits, in
strictly increasing depth order, the later one within the scanned depth
range, both strictly above the threshold and at most 255. -/
theorem castLoop_spec (f : ℕ → Option ℚ) (t : ℚ)
    (hf : ∀ a v, f a = some v → v ≤ 255) :
    ∀ (fuel a : ℕ) (hits out : List (ℕ × ℚ)),
      (∀ p ∈ hits, p.1 < a ∧ t < p.2 ∧ p.2 ≤ 255) →
      hits.length ≤ 1 →
      castLoop f t a hits fuel = some out →
      ∃ a0 l0 a1 l1, out = [(a0, l0), (a1, l1)] ∧ a0 < a1 ∧ a1 < a + fuel ∧
        t < l0 ∧ l0 ≤ 255 ∧ t < l1 ∧ l1 ≤ 255 := by
  intro fuel
  induction fuel with
  | zero =>
    intro a hits out _ _ hrun
    exact absurd hrun (by simp [castLoop])
  | succ n ih =>
    intro a hits out hinv hlen hrun
    rw [castLoop] at hrun
    rcases hfa : f a with _ | v
    · rw [hfa, castStep_none] at hrun
      rw [if_neg (by omega)] at hrun
      obtain ⟨a0, l0, a1, l1, hout, hlt, hb, hrest⟩ :=
        ih (a + 1) hits out
          (fun p hp => ⟨by have := (hinv p hp).1; omega, (hinv p hp).2⟩) hlen hrun
      exact ⟨a0, l0, a1, l1, hout, hlt, by omega, hrest⟩
    · by_cases hv : v > t
      · rw [hfa, castStep_hit hits a hv] at hrun
        cases hits with
        | nil =>
          rw [if_neg (by simp)] at hrun
          obtain ⟨a0, l0, a1, l1, hout, hlt, hb, hrest⟩ :=
            ih (a + 1) [(a, v)] out
              (by
                intro p hp
                rw [List.mem_singleton] at hp
                subst hp
                exact ⟨by omega, hv, hf a v hfa⟩)
              (by simp) hrun
          exact ⟨a0, l0, a1, l1, hout, hlt, by omega, hrest⟩
        | cons p ps =>
          have hps : ps = [] := by
            cases ps with
            | nil => rfl
            | cons q qs => simp at hlen
          subst hps
          rw [if_pos (by simp)] at hrun
          obtain rfl : [p, (a, v)] = out := by simpa using Option.some.inj hrun
          obtain ⟨hpa, hpt, hpb⟩ := hinv p (by simp)
          exact ⟨p.1, p.2, a, v, by simp, hpa, by omega, hpt, hpb, hv, hf a v hfa⟩
      · rw [hfa, castStep_miss hits a hv] at hrun
        rw [if_neg (by simp)] at hrun
        obtain ⟨a0, l0, a1, l1, hout, hlt, hb, hrest⟩ :=
          ih (a + 1) [] out (by simp) (by simp) hrun
        exact ⟨a0, l0, a1, l1, hout, hlt, by omega, hrest⟩

/-- The interpolation weight of two hit levels in `(0, 255]` lies in
`(0, 1]`: it equals the dimmer level divided by the brighter one. -/
theorem rayHitWeight_bounds {l0 l1 : ℚ} (h0 : 0 < l0) (h0' : l0 ≤ 255)
    (h1 : 0 < l1) (h1' : l1 ≤ 255) :
    0 < rayHitWeight l0 l1 ∧ rayHitWeight l0 l1 ≤ 1 := by
  simp only [rayHitWeight]
  by_cases hd : l0 / 255 > l1 / 255
  · rw [if_pos hd]
    have hval : l1 / 255 * (1 / (l0 / 255)) * (l0 / 255 * (1 / (l0 / 255))) = l1 / l0 := by
      field_simp
    rw [hval]
    refine ⟨by positivity, ?_⟩
    rw [div_le_one h0]
    linarith
  · rw [if_neg hd]
    have hval : l1 / 255 * (1 / (l1 / 255)) * (l0 / 255 * (1 / (l1 / 255))) = l0 / l1 := by
      field_simp
    rw [hval]
    refine ⟨by positivity, ?_⟩
    rw [div_le_one h1]
    push_neg at hd
    linarith

/-- Interpolating a pair of hits at increasing depths with levels in
`(0, 255]` yields a position between the two depths. -/
theorem normalizeRayHits_between (a0 a1 : ℕ) (l0 l1 : ℚ) (h0 : 0 < l0)
    (h0' : l0 ≤ 255) (h1 : 0 < l1) (h1' : l1 ≤ 255) (hlt : a0 < a1) :
    ∃ pos, normalizeRayHits [(a0, l0), (a1, l1)] = some pos ∧
      (a0 : ℚ) ≤ pos ∧ pos ≤ (a1 : ℚ) := by
  obtain ⟨hw0, hw1⟩ := rayHitWeight_bounds h0 h0' h1 h1'
  have hqlt : (a0 : ℚ) ≤ (a1 : ℚ) := by exact_mod_cast hlt.le
  simp only [rayHitWeight] at hw0 hw1
  simp only [normalizeRayHits]
  by_cases hd : l0 / 255 > l1 / 255
  · simp only [if_pos hd] at hw0 hw1 ⊢
    refine ⟨_, rfl, ?_, ?_⟩ <;> nlinarith
  · simp only [if_neg hd] at hw0 hw1 ⊢
    refine ⟨_, rfl, ?_, ?_⟩ <;> nlinarith

/-- C10 (amended): whenever a single ray cast returns a non-null result (for
a model-faithful gamma of `1` and a nonnegative threshold), the two hits it
interpolates are at strictly increasing depths `a0 < a1 ≤ maxDepth - 1`
(consecutive unless a `NaN` sample — from a degenerate normalization range —
sits between them, since a `NaN` neither extends nor clears the streak), both
hit levels are strictly positive (above the threshold), the interpolation
weight lies in `(0, 1]`, and the returned sub-pixel position lies in
`[a0, a1]`, hence in `[0, maxDepth - 1]`. -/
theorem castEdgeRay_spec (img : RawImage) (s : Settings) (b : ℤ) (side : Side)
    (maxDepth : ℕ) (bg : Option ℚ) (out : List (ℕ × ℚ))
    (hγ : s.rayGamma = 1) (ht : 0 ≤ s.rayThreshold)
    (h : castEdgeRayHits img s b side maxDepth bg = some out) :
    ∃ a0 l0 a1 l1, out = [(a0, l0), (a1, l1)] ∧ a0 < a1 ∧ a1 ≤ maxDepth - 1 ∧
      0 < l0 ∧ 0 < l1 ∧
      0 < rayHitWeight l0 l1 ∧ rayHitWeight l0 l1 ≤ 1 ∧
      ∃ pos, castEdgeRay img s b side maxDepth bg = some pos ∧
        (a0 : ℚ) ≤ pos ∧ pos ≤ (a1 : ℚ) := by
  unfold castEdgeRayHits at h
  obtain ⟨a0, l0, a1, l1, hout, hlt, hb, ht0, hb0, ht1, hb1⟩ :=
    castLoop_spec (castRaySample img s bg side b) s.rayThreshold
      (fun a v hv => (castRaySample_bounds hv).2) maxDepth 0 [] out
      (by simp) (by simp) h
  have hl0 : 0 < l0 := lt_of_le_of_lt ht ht0
  have hl1 : 0 < l1 := lt_of_le_of_lt ht ht1
  obtain ⟨hw0, hw1⟩ := rayHitWeight_bounds hl0 hb0 hl1 hb1
  obtain ⟨pos, hpos, hge, hle⟩ :=
    normalizeRayHits_between a0 a1 l0 l1 hl0 hb0 hl1 hb1 hlt
  refine ⟨a0, l0, a1, l1, hout, hlt, by omega, hl0, hl1, hw0, hw1, pos, ?_, hge, hle⟩
  unfold castEdgeRay castEdgeRayHits
  rw [h, hout]
  exact hpos

/-! ## Concrete evaluations

The theorems in this section evaluate the embedded pipeline on concrete
images by kernel reduction; the arithmetic of `ℚ` is made unfoldable for
that purpose. -/

section ConcreteRuns

attribute [local semireducible] Rat.mul Rat.inv Rat.add Rat.sub Rat.ofScientific

set_option maxHeartbeats 12000000

/-- C5: interpolating the hit pair `[(5, 60), (6, 240)]` gives exactly the
position `5.75` (well within the stated `±1e-6`), with weight `1/4`. -/
theorem normalizeRayHits_example :
    normalizeRayHits [(5, 60), (6, 240)] = some 5.75 ∧
    rayHitWeight 60 240 = 1 / 4 := by
  constructor <;> decide

/-- Witness for `castEdgeRay_spec`: a ray down a 1×4 strip that is dark in
its first row and bright below returns the hit list `[(1, 255), (2, 255)]`. -/
theorem castEdgeRay_spec_witness :
    defaultSettings.rayGamma = 1 ∧ (0 : ℚ) ≤ defaultSettings.rayThreshold ∧
    castEdgeRayHits stripImagePlain defaultSettings 0 .top 3 (some 0) =
      some [(1, 255), (2, 255)] ∧
    (∃ a0 l0 a1 l1, ([((1 : ℕ), (255 : ℚ)), (2, 255)] : List (ℕ × ℚ)) =
        [(a0, l0), (a1, l1)] ∧
      a0 < a1 ∧ a1 ≤ 3 - 1 ∧ 0 < l0 ∧ 0 < l1 ∧
      0 < rayHitWeight l0 l1 ∧ rayHitWeight l0 l1 ≤ 1 ∧
      ∃ pos, castEdgeRay stripImagePlain defaultSettings 0 .top 3 (some 0) =
          some pos ∧
        (a0 : ℚ) ≤ pos ∧ pos ≤ (a1 : ℚ)) :=
  ⟨rfl, by norm_num [defaultSettings], by decide,
   castEdgeRay_spec stripImagePlain defaultSettings 0 .top 3 (some 0)
     [(1, 255), (2, 255)] rfl (by norm_num [defaultSettings]) (by decide)⟩

/-- Counterexample to C10 as stated: on a 1×4 strip with rows 100, 60, 100
against background brightness 54, the black and white points coincide
(`6 + 54 = 60`), the middle sample divides zero by zero (`NaN`), which
neither extends nor clears the streak, so the ray returns a non-null
position interpolated from hits at depths 0 and 2 — not consecutive. -/
theorem castEdgeRayHits_gap :
    castEdgeRayHits stripImageGap defaultSettings 0 .top 3 (some 54) =
      some [(0, 255), (2, 255)] ∧
    castEdgeRay stripImageGap defaultSettings 0 .top 3 (some 54) = some 0 ∧
    (2 : ℕ) ≠ 0 + 1 :=
  ⟨by decide, by decide, by decide⟩

/-- C1: on a 20×20 all-black canvas (default settings, no target ratio) no
probe ray on any side ever finds an above-threshold sample, and
`detectCropBox` neither raises a detection failure nor returns numeric
edges: every edge is `Math.min()` of an empty spread — `+Infinity` — and the
cropped fields are `-Infinity`/`NaN`. -/
theorem detectCropBox_allBlack_silent :
    detectCropBox (loadedDetector (borderImage 20 0 0 0) 0) =
      Except.ok
        { sourceWidth := 20
          sourceHeight := 20
          sourceAspectRatio := .num 1
          croppedWidth := .ninf
          croppedHeight := .ninf
          croppedRatio := .nan
          correctedWidth := .num 20
          correctedHeight := .nan
          edges := { top := .pinf, right := .pinf, bottom := .pinf, left := .pinf }
          targetAspectRatio := 0
          backgroundBrightness := .num 0 } ∧
    JNum.isNum JNum.pinf = false :=
  ⟨by decide, by decide⟩

/-- Counterexample to C2 as stated: on the spec's scenario — 100×100 canvas,
10-pixel uniform white border (brightness 255) around a black interior,
target ratio 1 — the sampled background brightness 255 saturates the black
point (`clamp8(6 + 255) = 255 = white point`), every sample normalizes to
`NaN` or `0`, every ray fails, and all four edges come back `+Infinity`
rather than ≈10; the cropped fields are `-Infinity`/`NaN`, not ≈80. -/
theorem detectCropBox_whiteBorder100 :
    detectCropBox (loadedDetector (borderImage 100 10 255 0) 1) =
      Except.ok
        { sourceWidth := 100
          sourceHeight := 100
          sourceAspectRatio := .num 1
          croppedWidth := .ninf
          croppedHeight := .ninf
          croppedRatio := .nan
          correctedWidth := .num 100
          correctedHeight := .nan
          edges := { top := .pinf, right := .pinf, bottom := .pinf, left := .pinf }
          targetAspectRatio := 1
          backgroundBrightness := .num 255 } ∧
    JNum.isNum JNum.pinf = false :=
  ⟨by decide, by decide⟩

/-- C2 (amended): with the colors inverted — 100×100 canvas, 10-pixel
uniform black border (brightness 0) around a white interior, default
settings, target ratio 1 — `detectCropBox` succeeds with edges exactly
`{top:10, right:10, bottom:10, left:10}`, cropped size exactly 80×80, cropped
ratio 1, and corrected size 100×100. -/
theorem detectCropBox_blackBorder100 :
    detectCropBox (loadedDetector (borderImage 100 10 0 255) 1) =
      Except.ok
        { sourceWidth := 100
          sourceHeight := 100
          sourceAspectRatio := .num 1
          croppedWidth := .num 80
          croppedHeight := .num 80
          croppedRatio := .num 1
          correctedWidth := .num 100
          correctedHeight := .num 100
          edges := { top := .num 10, right := .num 10, bottom := .num 10, left := .num 10 }
          targetAspectRatio := 1
          backgroundBrightness := .num 0 } := by
  decide

/-- Counterexample to C3 as stated: a successful run (20×20 canvas, black
border of 4 above and below, 2 left and right, white interior, target ratio
1) has `croppedRatio = 4/3 > 0`, yet `correctedHeight = 15 < 20 =
sourceHeight` — the height is shrunk, not padded. -/
theorem detectCropBox_asym20_shrinks :
    detectCropBox (loadedDetector asymImage20 1) =
      Except.ok
        { sourceWidth := 20
          sourceHeight := 20
          sourceAspectRatio := .num 1
          croppedWidth := .num 16
          croppedHeight := .num 12
          croppedRatio := .num (4 / 3)
          correctedWidth := .num 20
          correctedHeight := .num 15
          edges := { top := .num 4, right := .num 2, bottom := .num 4, left := .num 2 }
          targetAspectRatio := 1
          backgroundBrightness := .num 0 } ∧
    (15 : ℚ) < 20 :=
  ⟨by decide, by decide⟩

end ConcreteRuns

/-! ## C3: aspect-corrected target dimensions -/

/-- C3 (amended): for a finite target ratio, finite positive cropped ratio
and nonnegative source dimensions, `detectCropBox`'s corrected dimensions
satisfy: if `imageRatio > croppedRatio` then `correctedWidth =
sourceWidth·(imageRatio/croppedRatio) ≥ sourceWidth` and `correctedHeight =
sourceHeight`; otherwise `correctedWidth = sourceWidth` and
`correctedHeight = sourceHeight·(imageRatio/croppedRatio) ≤ sourceHeight` —
so the width is never shrunk, but in the second branch the height is scaled
down (strictly, when `imageRatio < croppedRatio`), not padded. -/
theorem calcCorrected_spec (ir cr w h : ℚ) (hcr : 0 < cr) (hw : 0 ≤ w)
    (hh : 0 ≤ h) :
    (ir > cr →
      calcCorrectedWidth (.num ir) (.num cr) (.num w) = .num (w * (ir / cr)) ∧
      calcCorrectedHeight (.num ir) (.num cr) (.num h) = .num h ∧
      w ≤ w * (ir / cr)) ∧
    (¬ir > cr →
      calcCorrectedWidth (.num ir) (.num cr) (.num w) = .num w ∧
      calcCorrectedHeight (.num ir) (.num cr) (.num h) = .num (h * (ir / cr)) ∧
      h * (ir / cr) ≤ h) := by
  constructor
  · intro hgt
    have hj : jgt (JNum.num ir) (JNum.num cr) = true := by
      simpa [jgt] using hgt
    have hd : jdiv (JNum.num ir) (JNum.num cr) = .num (ir / cr) := by
      simp [jdiv, hcr.ne']
    refine ⟨?_, ?_, ?_⟩
    · simp [calcCorrectedWidth, hj, hd, jmul]
    · simp [calcCorrectedHeight, hj]
    · exact le_mul_of_one_le_right hw (le_of_lt ((one_lt_div hcr).mpr hgt))
  · intro hng
    have hj : jgt (JNum.num ir) (JNum.num cr) = false := by
      simpa [jgt] using hng
    have hd : jdiv (JNum.num ir) (JNum.num cr) = .num (ir / cr) := by
      simp [jdiv, hcr.ne']
    refine ⟨?_, ?_, ?_⟩
    · simp [calcCorrectedWidth, hj]
    · simp [calcCorrectedHeight, hj, hd, jmul]
    · exact mul_le_of_le_one_right hh ((div_le_one hcr).mpr (not_lt.mp hng))

/-- Witness for `calcCorrected_spec` at `imageRatio = 2`, `croppedRatio = 1`,
`sourceWidth = 3`, `sourceHeight = 4`. -/
theorem calcCorrected_spec_witness :
    (0 : ℚ) < 1 ∧ (0 : ℚ) ≤ 3 ∧ (0 : ℚ) ≤ 4 ∧
    (((2 : ℚ) > 1 →
      calcCorrectedWidth (.num 2) (.num 1) (.num 3) = .num (3 * (2 / 1)) ∧
      calcCorrectedHeight (.num 2) (.num 1) (.num 4) = .num 4 ∧
      (3 : ℚ) ≤ 3 * (2 / 1)) ∧
    (¬(2 : ℚ) > 1 →
      calcCorrectedWidth (.num 2) (.num 1) (.num 3) = .num 3 ∧
      calcCorrectedHeight (.num 2) (.num 1) (.num 4) = .num (4 * (2 / 1)) ∧
      (4 : ℚ) * (2 / 1) ≤ 4)) :=
  ⟨by norm_num, by norm_num, by norm_num,
   calcCorrected_spec 2 1 3 4 (by norm_num) (by norm_num) (by norm_num)⟩
